import Mathlib

/-!
Shallow embedding of the assignment-submission web application
(`app.py`, `admin/admin_routes.py`, `database.py`).

The document store (Azure Cosmos) is modelled as a Lean list of records.
The `submissions` container has partition key `/erp`, so its upsert is
keyed by the pair (erp, id); the `teachers` container has partition key
`/id`, so its upsert, point read and point delete are keyed by the id
alone.  Wall-clock time (`datetime.utcnow()`), the random UUID entropy
and the password-hash comparison are explicit inputs of the embedded
functions.  Python `str.strip` is embedded directly (drop leading and
trailing whitespace characters), and flash messages are embedded as
outcome constructors.
-/

namespace AsProject

/-- Python `str.strip()` on the character list: drop leading and trailing
whitespace. -/
def pstripList (l : List Char) : List Char :=
  ((l.dropWhile Char.isWhitespace).reverse.dropWhile Char.isWhitespace).reverse

/-- Python `str.strip()` on strings. -/
def pstrip (s : String) : String := String.mk (pstripList s.data)

/-- Lowercase hex digit for a value below 16 (`0`..`9`, `a`..`f`), as
produced by Python `int.to_bytes`/`uuid.hex` formatting. -/
def hexChar (n : Nat) : Char :=
  if n < 10 then Char.ofNat (48 + n) else Char.ofNat (87 + n)

/-- Big-endian, zero-padded hex rendering of `n` with exactly `w` digits
in front of `acc` (the digits are produced least-significant first and
consed onto the accumulator). -/
def hexDigitsAux : Nat → Nat → List Char → List Char
  | _, 0, acc => acc
  | n, w + 1, acc => hexDigitsAux (n / 16) w (hexChar (n % 16) :: acc)

/-- Embeds `uuid.uuid4().hex`: thirty-two lowercase hex characters rendering the
low 128 bits of the entropy `n`. -/
def uuid4Hex (n : Nat) : List Char := hexDigitsAux n 32 []

/-- Embeds `uuid.uuid4().hex[:10]` from `submit`: the generated tracking id. -/
def genTrackingId (n : Nat) : String := String.mk ((uuid4Hex n).take 10)

/-- A document of the `submissions` container, exactly the fields written
by `submit` (the `graded_at` key is absent, here `none`, until `grade`
adds it).  `marks` and `remark` are nullable. -/
structure SubmissionDoc where
  id : String
  student_name : String
  erp : String
  branch : String
  section_ : String
  subject : String
  description : String
  file_url : String
  submitted_at : String
  marks : Option String
  remark : Option String
  graded_at : Option String
deriving DecidableEq, Repr

/-- Cosmos `upsert_item` on the `submissions` container: the container is
partitioned by `/erp`, so the record replaced is the one agreeing with
`doc` on both `erp` (partition key) and `id`; if none exists, the
document is inserted. -/
def upsertSubmission (store : List SubmissionDoc) (doc : SubmissionDoc) :
    List SubmissionDoc :=
  match store with
  | [] => [doc]
  | d :: rest =>
      if d.erp = doc.erp ∧ d.id = doc.id then doc :: rest
      else d :: upsertSubmission rest doc

/-- The cross-partition query `SELECT * FROM c WHERE c.id = tid` used by
`grade` and `track`. -/
def queryById (store : List SubmissionDoc) (tid : String) : List SubmissionDoc :=
  store.filter (fun d => d.id = tid)

/-- The multipart form received by `submit`.  `request.form["k"]` raises
a `KeyError` when the key is absent, so each bracket-accessed field is an
`Option`; `description` uses `request.form.get("description", "")` and
`file` uses `request.files.get("file")`.  An attached file carries its
filename. -/
structure SubmitForm where
  name : Option String
  erp : Option String
  branch : Option String
  section_ : Option String
  subject : Option String
  description : Option String
  file : Option String
deriving DecidableEq, Repr

/-- The user-visible outcome of `submit`:
`missingField` — a bracket access raised `KeyError`, caught by the
broad handler which flashes `Error during submit: ...`;
`validationMsg` — the flash `Please fill all required fields and attach
the file.`;
`success tid` — the success page showing the tracking id. -/
inductive SubmitOutcome where
  | missingField
  | validationMsg
  | success (tid : String)
deriving DecidableEq, Repr

/-- Result of a `submit` call: the submissions store after the call, the
list of blob uploads issued (tracking id, filename), and the outcome. -/
structure SubmitResult where
  store : List SubmissionDoc
  blobCalls : List (String × String)
  outcome : SubmitOutcome
deriving DecidableEq, Repr

/-- Embeds `upload_file_to_blob`: the blob name is `tracking_id/filename`
and the returned URL is the blob client URL for that name. -/
def blobUrl (tid fname : String) : String := tid ++ "/" ++ fname

/-- The document `submit` persists on success: exactly the submitted
(stripped) fields, the blob URL, the submission timestamp, and null
`marks` and `remark` (no `graded_at` key yet). -/
def submissionRecord (name erp branch sec subj dsc tid fname now : String) :
    SubmissionDoc :=
  { id := tid, student_name := name, erp := erp, branch := branch,
    section_ := sec, subject := subj, description := dsc,
    file_url := blobUrl tid fname, submitted_at := now,
    marks := none, remark := none, graded_at := none }

/-- Embeds `submit` (app.py): strips the five required text fields, checks that
all of them and the file are truthy, then generates the tracking id from
the UUID entropy `entropy`, uploads the file, and upserts the new
document with `marks` and `remark` null.  `now` is
`datetime.utcnow().isoformat()`. -/
def submit (store : List SubmissionDoc) (form : SubmitForm) (entropy : Nat)
    (now : String) : SubmitResult :=
  match form.name, form.erp, form.branch, form.section_, form.subject with
  | some name0, some erp0, some branch0, some section0, some subject0 =>
      let name := pstrip name0
      let erp := pstrip erp0
      let branch := pstrip branch0
      let section1 := pstrip section0
      let subject := pstrip subject0
      let description := pstrip ((form.description).getD "")
      match form.file with
      | none => { store := store, blobCalls := [], outcome := .validationMsg }
      | some fname =>
          if name = "" ∨ erp = "" ∨ branch = "" ∨ section1 = "" ∨ subject = "" then
            { store := store, blobCalls := [], outcome := .validationMsg }
          else
            let tid := genTrackingId entropy
            let doc := submissionRecord name erp branch section1 subject
              description tid fname now
            { store := upsertSubmission store doc,
              blobCalls := [(tid, fname)], outcome := .success tid }
  | _, _, _, _, _ => { store := store, blobCalls := [], outcome := .missingField }

/-- The outcome of a POST to `track`: `noId` when the submitted tracking
id strips to empty (no query is issued), `notFound` for the flash
`Tracking ID not found`, `found d` when the first query result `d` is
rendered. -/
inductive TrackResult where
  | noId
  | notFound
  | found (d : SubmissionDoc)
deriving DecidableEq, Repr

/-- Embeds `track` (app.py, POST branch): strips
`request.form.get("tracking_id", "")` and returns the first query match,
if any. -/
def track (store : List SubmissionDoc) (tidField : Option String) : TrackResult :=
  let tid := pstrip (tidField.getD "")
  if tid = "" then .noId
  else
    match queryById store tid with
    | [] => .notFound
    | d :: _ => .found d

/-- The flash issued by `grade`: `Submission not found` or
`Grades updated`. -/
inductive GradeOutcome where
  | notFound
  | updated
deriving DecidableEq, Repr

/-- The three mutations `grade` applies to the fetched record:
`item["marks"] = marks`, `item["remark"] = remark`,
`item["graded_at"] = utcnow`. -/
def gradedDoc (item : SubmissionDoc) (marks : Option String)
    (remark now : String) : SubmissionDoc :=
  { item with marks := marks, remark := some remark, graded_at := some now }

/-- Embeds `grade` (app.py): strips the tracking id, takes `marks` raw from
`request.form.get("marks")` (absent key gives `None`), strips
`request.form.get("remark", "")`, queries by id across partitions, and
on a match rewrites the first result with the new `marks`, `remark` and
`graded_at` fields via `upsert_item`.  `now` is
`datetime.utcnow().isoformat()`. -/
def grade (store : List SubmissionDoc) (tidRaw : String)
    (marksField : Option String) (remarkField : Option String) (now : String) :
    List SubmissionDoc × GradeOutcome :=
  let tid := pstrip tidRaw
  let marks := marksField
  let remark := pstrip (remarkField.getD "")
  match queryById store tid with
  | [] => (store, .notFound)
  | item :: _ => (upsertSubmission store (gradedDoc item marks remark now), .updated)

/-- A document of the `teachers` container, exactly the fields written by
`create_teacher` (admin_routes.py). -/
structure TeacherDoc where
  id : String
  name : String
  password : String
  role : String
  createdBy : String
  createdAt : String
  isActive : Bool
deriving DecidableEq, Repr

/-- Cosmos `upsert_item` on the `teachers` container: partition key is
`/id`, so the replaced record is the one with the same `id`; otherwise
the document is inserted. -/
def upsertTeacher (store : List TeacherDoc) (doc : TeacherDoc) :
    List TeacherDoc :=
  match store with
  | [] => [doc]
  | d :: rest =>
      if d.id = doc.id then doc :: rest else d :: upsertTeacher rest doc

/-- Cosmos point read `read_item(teacher_id, teacher_id)` on the
`teachers` container: the record whose `id` (also its partition key)
equals `tid`, or a not-found failure. -/
def readTeacher (store : List TeacherDoc) (tid : String) : Option TeacherDoc :=
  match store.filter (fun d => d.id = tid) with
  | [] => none
  | d :: _ => some d

/-- Cosmos point delete `delete_item(teacher_id, teacher_id)` on the
`teachers` container: removes the record with that id, or fails with a
not-found error (`none`) when no such record exists. -/
def deleteItemTeacher (store : List TeacherDoc) (tid : String) :
    Option (List TeacherDoc) :=
  match readTeacher store tid with
  | none => none
  | some _ => some (store.eraseP (fun d => d.id == tid))

/-- The flash issued by `delete_teacher`: the success flash
`Teacher "<id>" deleted successfully`, or the error flash
`Error deleting teacher: ...` produced by the broad exception handler
when `delete_item` raises (in particular on not-found). -/
inductive DeleteOutcome where
  | deleted
  | errorFlash
deriving DecidableEq, Repr

/-- Embeds `delete_teacher` (admin_routes.py): point delete by id; any raised
exception — including Cosmos not-found — is caught and surfaced as an
error flash, leaving the store as it was. -/
def delete_teacher (store : List TeacherDoc) (tid : String) :
    List TeacherDoc × DeleteOutcome :=
  match deleteItemTeacher store tid with
  | some store2 => (store2, .deleted)
  | none => (store, .errorFlash)

/-- The flash issued by `create_teacher`, one constructor per distinct
message: `All fields are required`, `Passwords do not match`,
`Password must be at least 6 characters long`,
`Teacher ID "<id>" already exists`, and the success flash. -/
inductive CreateOutcome where
  | missingFields
  | passwordMismatch
  | passwordTooShort
  | duplicateId
  | created
deriving DecidableEq, Repr

/-- Embeds `create_teacher` (admin_routes.py): strips id and name, validates
(all of id, name, password truthy; password equals confirmation;
password length at least 6), rejects a duplicate id found by point read,
and otherwise upserts the new document.  `genHash` embeds
`generate_password_hash`, `admin` is the admin username from the
session (default admin), and `now` is the UTC timestamp. -/
def create_teacher (store : List TeacherDoc)
    (teacherIdRaw teacherNameRaw password confirmPassword : String)
    (genHash : String → String) (admin now : String) :
    List TeacherDoc × CreateOutcome :=
  let teacher_id := pstrip teacherIdRaw
  let teacher_name := pstrip teacherNameRaw
  if teacher_id = "" ∨ teacher_name = "" ∨ password = "" then
    (store, .missingFields)
  else if password ≠ confirmPassword then
    (store, .passwordMismatch)
  else if password.length < 6 then
    (store, .passwordTooShort)
  else
    match readTeacher store teacher_id with
    | some _ => (store, .duplicateId)
    | none =>
        let doc : TeacherDoc :=
          { id := teacher_id, name := teacher_name,
            password := genHash password, role := "teacher",
            createdBy := admin, createdAt := now, isActive := true }
        (upsertTeacher store doc, .created)

/-- Embeds `load_teacher_from_db` (app.py): the first result of
the query selecting records with the given id, role teacher and
active flag true on the `teachers` container. -/
def load_teacher_from_db (teachers : List TeacherDoc) (tid : String) :
    Option TeacherDoc :=
  match teachers.filter
      (fun d => d.id = tid ∧ d.role = "teacher" ∧ d.isActive = true) with
  | [] => none
  | d :: _ => some d

/-- The legacy `teachers.json` flat file: a finite map from teacher id to
password hash, looked up with `dict.get`. -/
def legacyLookup (legacy : List (String × String)) (tid : String) :
    Option String :=
  match legacy.filter (fun p => p.1 = tid) with
  | [] => none
  | p :: _ => some p.2

/-- The teacher-facing result of a POST to `login`: the session keys set
and the flash message shown.  `dbSuccess` flashes
`Logged in successfully`, `legacySuccess` flashes
`Logged in successfully (legacy)`, and `invalid` is the single flash
`Invalid teacher ID or password` used for every failure. -/
inductive LoginResult where
  | dbSuccess (sessionTeacher sessionTeacherName : String)
  | legacySuccess (sessionTeacher sessionTeacherName : String)
  | invalid
deriving DecidableEq, Repr

/-- Embeds `login` (app.py, POST branch): strips the submitted teacher id, first
tries the Cosmos teachers container via `load_teacher_from_db` followed
by a password-hash check, then falls back to the legacy flat file, and
when both fail flashes the one generic invalid-credentials message.
`checkHash storedHash password` embeds `check_password_hash`. -/
def login (teachers : List TeacherDoc) (legacy : List (String × String))
    (checkHash : String → String → Bool) (tidRaw password : String) :
    LoginResult :=
  let teacher_id := pstrip tidRaw
  let tryLegacy : LoginResult :=
    match legacyLookup legacy teacher_id with
    | some hashed =>
        if hashed ≠ "" ∧ checkHash hashed password = true then
          .legacySuccess teacher_id teacher_id
        else .invalid
    | none => .invalid
  match load_teacher_from_db teachers teacher_id with
  | some t =>
      if checkHash t.password password then .dbSuccess teacher_id t.name
      else tryLegacy
  | none => tryLegacy

/-- A concrete stored submission used to instantiate the theorems. -/
def sampleSubmission : SubmissionDoc :=
  { id := "ab12cd34ef", student_name := "A", erp := "123", branch := "CS",
    section_ := "A", subject := "Math", description := "",
    file_url := "ab12cd34ef/hw.pdf", submitted_at := "T0",
    marks := none, remark := none, graded_at := none }

/-- A concrete stored teacher account used to instantiate the theorems. -/
def sampleTeacher : TeacherDoc :=
  { id := "t1", name := "Alice", password := "pw1", role := "teacher",
    createdBy := "admin", createdAt := "T0", isActive := true }

/-- A concrete hash check used to instantiate the theorems: the stored
value matches exactly the supplied password. -/
def sampleCheckHash : String → String → Bool := fun stored pw => stored == pw

/-- A concrete valid submit form used to instantiate the theorems. -/
def sampleForm : SubmitForm :=
  { name := some "A", erp := some "123", branch := some "CS",
    section_ := some "A", subject := some "Math", description := none,
    file := some "hw.pdf" }

/-- A submit form whose `name` field is present but only whitespace,
used to instantiate the validation theorems. -/
def sampleInvalidForm : SubmitForm :=
  { name := some " ", erp := some "123", branch := some "CS",
    section_ := some "A", subject := some "Math", description := none,
    file := some "hw.pdf" }

/-- A submit form whose `name` key is absent entirely, used to
instantiate the validation theorems. -/
def sampleAbsentNameForm : SubmitForm :=
  { name := none, erp := some "123", branch := some "CS",
    section_ := some "A", subject := some "Math", description := none,
    file := some "hw.pdf" }

/-- The five bracket-accessed text fields of the submit form are all
present (no `KeyError` is raised). -/
def textFieldsPresent (form : SubmitForm) : Bool :=
  form.name.isSome && form.erp.isSome && form.branch.isSome &&
    form.section_.isSome && form.subject.isSome

/-- A form field is truthy after stripping: present and non-empty. -/
def truthyField (o : Option String) : Bool :=
  match o with
  | none => false
  | some s => !(pstrip s == "")

/-- The `submit` validation condition: all five required text fields are
present and strip to non-empty strings and a file is attached. -/
def validSubmitForm (form : SubmitForm) : Bool :=
  truthyField form.name && truthyField form.erp && truthyField form.branch &&
    truthyField form.section_ && truthyField form.subject && form.file.isSome

/-! ### Helper lemmas -/

lemma hexDigitsAux_length (w : Nat) :
    ∀ n acc, (hexDigitsAux n w acc).length = w + acc.length := by
  induction w with
  | zero => intro n acc; simp [hexDigitsAux]
  | succ w ih => intro n acc; simp [hexDigitsAux, ih]; omega

lemma genTrackingId_length (n : Nat) : (genTrackingId n).length = 10 := by
  have h32 : (uuid4Hex n).length = 32 := by
    simp [uuid4Hex, hexDigitsAux_length]
  simp [genTrackingId, String.length, h32]

lemma genTrackingId_ne_empty (n : Nat) : genTrackingId n ≠ "" := by
  intro h
  have h10 := genTrackingId_length n
  rw [h] at h10
  exact absurd h10 (by decide)

lemma hexChar_not_ws : ∀ d < 16, (hexChar d).isWhitespace = false := by decide

lemma hexDigitsAux_not_ws (w : Nat) :
    ∀ n acc, (∀ c ∈ acc, c.isWhitespace = false) →
      ∀ c ∈ hexDigitsAux n w acc, c.isWhitespace = false := by
  induction w with
  | zero => intro n acc hacc c hc; exact hacc c hc
  | succ w ih =>
      intro n acc hacc c hc
      refine ih _ _ ?_ c hc
      intro c2 hc2
      rcases List.mem_cons.mp hc2 with h | h
      · subst h; exact hexChar_not_ws _ (Nat.mod_lt _ (by decide))
      · exact hacc c2 h

lemma dropWhile_ws_eq_self (l : List Char)
    (h : ∀ c ∈ l, c.isWhitespace = false) :
    l.dropWhile Char.isWhitespace = l := by
  cases l with
  | nil => rfl
  | cons a l =>
      rw [List.dropWhile_cons, if_neg]
      simp [h a (by simp)]

lemma pstripList_eq_self (l : List Char)
    (h : ∀ c ∈ l, c.isWhitespace = false) :
    pstripList l = l := by
  unfold pstripList
  rw [dropWhile_ws_eq_self l h,
    dropWhile_ws_eq_self l.reverse (fun c hc => h c (List.mem_reverse.mp hc)),
    List.reverse_reverse]

lemma pstrip_genTrackingId (n : Nat) :
    pstrip (genTrackingId n) = genTrackingId n := by
  apply String.ext
  show pstripList ((uuid4Hex n).take 10) = (uuid4Hex n).take 10
  exact pstripList_eq_self _
    (fun c hc =>
      hexDigitsAux_not_ws 32 n [] (by simp) c (List.take_subset 10 _ hc))

lemma upsertSubmission_append (store : List SubmissionDoc)
    (doc : SubmissionDoc)
    (h : ∀ d ∈ store, ¬(d.erp = doc.erp ∧ d.id = doc.id)) :
    upsertSubmission store doc = store ++ [doc] := by
  induction store with
  | nil => rfl
  | cons a rest ih =>
      simp only [upsertSubmission]
      rw [if_neg (h a (by simp))]
      simp [ih (fun d hd => h d (by simp [hd]))]

lemma upsertSubmission_replace (l1 l2 : List SubmissionDoc)
    (item doc : SubmissionDoc)
    (h1 : ∀ d ∈ l1, d.id ≠ doc.id)
    (herp : item.erp = doc.erp) (hid : item.id = doc.id) :
    upsertSubmission (l1 ++ item :: l2) doc = l1 ++ doc :: l2 := by
  induction l1 with
  | nil => simp [upsertSubmission, herp, hid]
  | cons a l1 ih =>
      simp only [List.cons_append, upsertSubmission]
      rw [if_neg (fun hc => h1 a (by simp) hc.2)]
      simp [ih (fun d hd => h1 d (by simp [hd]))]

lemma grade_eq_of_query (store : List SubmissionDoc) (tidRaw : String)
    (mf rf : Option String) (now : String) (item : SubmissionDoc)
    (rest : List SubmissionDoc)
    (hq : queryById store (pstrip tidRaw) = item :: rest) :
    grade store tidRaw mf rf now =
      (upsertSubmission store (gradedDoc item mf (pstrip (rf.getD "")) now),
        .updated) := by
  show (match queryById store (pstrip tidRaw) with
    | [] => (store, GradeOutcome.notFound)
    | item :: _ =>
        (upsertSubmission store (gradedDoc item mf (pstrip (rf.getD "")) now),
          GradeOutcome.updated)) =
      (upsertSubmission store (gradedDoc item mf (pstrip (rf.getD "")) now),
        GradeOutcome.updated)
  rw [hq]

lemma grade_match_spec (store : List SubmissionDoc) (tidRaw : String)
    (mf rf : Option String) (now : String) (item : SubmissionDoc)
    (rest : List SubmissionDoc)
    (hq : queryById store (pstrip tidRaw) = item :: rest) :
    ∃ l1 l2, store = l1 ++ item :: l2 ∧
      (∀ d ∈ l1, d.id ≠ pstrip tidRaw) ∧ item.id = pstrip tidRaw ∧
      grade store tidRaw mf rf now =
        (l1 ++ gradedDoc item mf (pstrip (rf.getD "")) now :: l2, .updated) := by
  have hg := grade_eq_of_query store tidRaw mf rf now item rest hq
  unfold queryById at hq
  obtain ⟨l1, l2, hstore, h1, h2, h3⟩ := List.filter_eq_cons_iff.mp hq
  have h1' : ∀ d ∈ l1, d.id ≠ pstrip tidRaw := by
    intro d hd
    simpa using h1 d hd
  have h2' : item.id = pstrip tidRaw := by simpa using h2
  refine ⟨l1, l2, hstore, h1', h2', ?_⟩
  rw [hg, hstore]
  rw [upsertSubmission_replace l1 l2 item
    (gradedDoc item mf (pstrip (rf.getD "")) now)
    (fun d hd hc => h1' d hd (hc.trans h2')) rfl rfl]

lemma gradedDoc_idem (item : SubmissionDoc) (mf : Option String)
    (r now : String) :
    gradedDoc (gradedDoc item mf r now) mf r now = gradedDoc item mf r now := rfl

/-! ### Claim theorems -/

/-- C5: for every tracking id that matches no record in the store,
`grade` returns the store completely unmodified and flashes the
not-found message (`Submission not found`); the not-found branch returns
before any `upsert_item` call. -/
theorem grade_nonexistent_id_no_write (store : List SubmissionDoc)
    (tidRaw : String) (mf rf : Option String) (now : String)
    (h : queryById store (pstrip tidRaw) = []) :
    grade store tidRaw mf rf now = (store, GradeOutcome.notFound) := by
  show (match queryById store (pstrip tidRaw) with
    | [] => (store, GradeOutcome.notFound)
    | item :: _ =>
        (upsertSubmission store (gradedDoc item mf (pstrip (rf.getD "")) now),
          GradeOutcome.updated)) = (store, GradeOutcome.notFound)
  rw [h]

theorem grade_nonexistent_id_no_write_witness :
    queryById [sampleSubmission] (pstrip "zz999") = [] ∧
    grade [sampleSubmission] "zz999" (some "80") (some "fine") "T1" =
      ([sampleSubmission], GradeOutcome.notFound) :=
  ⟨by decide,
    grade_nonexistent_id_no_write [sampleSubmission] "zz999" (some "80")
      (some "fine") "T1" (by decide)⟩

/-- C8: for every grade call whose id query has at least one match,
exactly the first query result is rewritten in place: the resulting
store keeps every other record (the prefix `l1` and suffix `l2`)
unchanged, and the rewritten record agrees with the first match on every
field except `marks`, `remark` and `graded_at`, which take the new
values. -/
theorem grade_first_match_frame (store : List SubmissionDoc)
    (tidRaw : String) (mf rf : Option String) (now : String)
    (item : SubmissionDoc) (rest : List SubmissionDoc)
    (hq : queryById store (pstrip tidRaw) = item :: rest) :
    ∃ l1 l2 item2,
      store = l1 ++ item :: l2 ∧
      (∀ d ∈ l1, d.id ≠ pstrip tidRaw) ∧
      grade store tidRaw mf rf now = (l1 ++ item2 :: l2, GradeOutcome.updated) ∧
      item2.id = item.id ∧
      item2.student_name = item.student_name ∧
      item2.erp = item.erp ∧
      item2.branch = item.branch ∧
      item2.section_ = item.section_ ∧
      item2.subject = item.subject ∧
      item2.description = item.description ∧
      item2.file_url = item.file_url ∧
      item2.submitted_at = item.submitted_at ∧
      item2.marks = mf ∧
      item2.remark = some (pstrip (rf.getD "")) ∧
      item2.graded_at = some now := by
  obtain ⟨l1, l2, hstore, h1, _, hg⟩ :=
    grade_match_spec store tidRaw mf rf now item rest hq
  exact ⟨l1, l2, gradedDoc item mf (pstrip (rf.getD "")) now, hstore, h1, hg,
    rfl, rfl, rfl, rfl, rfl, rfl, rfl, rfl, rfl, rfl, rfl, rfl⟩

theorem grade_first_match_frame_witness :
    queryById [sampleSubmission] (pstrip "ab12cd34ef") = [sampleSubmission] ∧
    (∃ l1 l2 item2,
      [sampleSubmission] = l1 ++ sampleSubmission :: l2 ∧
      (∀ d ∈ l1, d.id ≠ pstrip "ab12cd34ef") ∧
      grade [sampleSubmission] "ab12cd34ef" (some "95") (some " good ") "T1" =
        (l1 ++ item2 :: l2, GradeOutcome.updated) ∧
      item2.id = sampleSubmission.id ∧
      item2.student_name = sampleSubmission.student_name ∧
      item2.erp = sampleSubmission.erp ∧
      item2.branch = sampleSubmission.branch ∧
      item2.section_ = sampleSubmission.section_ ∧
      item2.subject = sampleSubmission.subject ∧
      item2.description = sampleSubmission.description ∧
      item2.file_url = sampleSubmission.file_url ∧
      item2.submitted_at = sampleSubmission.submitted_at ∧
      item2.marks = some "95" ∧
      item2.remark = some (pstrip ((some " good ").getD "")) ∧
      item2.graded_at = some "T1") :=
  ⟨by decide,
    grade_first_match_frame [sampleSubmission] "ab12cd34ef" (some "95")
      (some " good ") "T1" sampleSubmission [] (by decide)⟩

/-- C2: grading is idempotent under identical repeated calls: applying
`grade` twice with the same tracking id, marks, remark and timestamp to
a store containing a matching record yields exactly the store and
outcome of applying it once. -/
theorem grade_idempotent (store : List SubmissionDoc) (tidRaw : String)
    (mf rf : Option String) (now : String) (item : SubmissionDoc)
    (rest : List SubmissionDoc)
    (hq : queryById store (pstrip tidRaw) = item :: rest) :
    grade (grade store tidRaw mf rf now).1 tidRaw mf rf now =
      grade store tidRaw mf rf now := by
  obtain ⟨l1, l2, hstore, h1, h2, hg⟩ :=
    grade_match_spec store tidRaw mf rf now item rest hq
  have hdoc : (gradedDoc item mf (pstrip (rf.getD "")) now).id = pstrip tidRaw := h2
  have hl1 : List.filter (fun d => decide (d.id = pstrip tidRaw)) l1 = [] :=
    List.filter_eq_nil_iff.mpr (fun d hd => by simpa using h1 d hd)
  have hq2 : queryById (l1 ++ gradedDoc item mf (pstrip (rf.getD "")) now :: l2)
      (pstrip tidRaw) =
      gradedDoc item mf (pstrip (rf.getD "")) now ::
        List.filter (fun d => decide (d.id = pstrip tidRaw)) l2 := by
    unfold queryById
    rw [List.filter_append, hl1, List.filter_cons, if_pos (by simpa using hdoc)]
    simp
  have hg2 := grade_eq_of_query _ tidRaw mf rf now _ _ hq2
  rw [hg]
  rw [hg2, gradedDoc_idem,
    upsertSubmission_replace l1 l2 _ (gradedDoc item mf (pstrip (rf.getD "")) now)
      (fun d hd hc => h1 d hd (hc.trans hdoc)) rfl rfl]

theorem grade_idempotent_witness :
    queryById [sampleSubmission] (pstrip "ab12cd34ef") = [sampleSubmission] ∧
    grade (grade [sampleSubmission] "ab12cd34ef" (some "95") (some " good ") "T1").1
        "ab12cd34ef" (some "95") (some " good ") "T1" =
      grade [sampleSubmission] "ab12cd34ef" (some "95") (some " good ") "T1" :=
  ⟨by decide,
    grade_idempotent [sampleSubmission] "ab12cd34ef" (some "95") (some " good ")
      "T1" sampleSubmission [] (by decide)⟩

/-- C10: a grade request whose form omits both the `marks` and the
`remark` field still succeeds when a record with the tracking id exists
(no validation is performed): the first match is rewritten with `marks`
null, `remark` the empty string and `graded_at` the current time, every
other record unchanged. -/
theorem grade_omitted_fields (store : List SubmissionDoc)
    (tidRaw now : String) (item : SubmissionDoc) (rest : List SubmissionDoc)
    (hq : queryById store (pstrip tidRaw) = item :: rest) :
    ∃ l1 l2, store = l1 ++ item :: l2 ∧
      grade store tidRaw none none now =
        (l1 ++ gradedDoc item none "" now :: l2, GradeOutcome.updated) ∧
      (gradedDoc item none "" now).marks = none ∧
      (gradedDoc item none "" now).remark = some "" ∧
      (gradedDoc item none "" now).graded_at = some now := by
  obtain ⟨l1, l2, hstore, _, _, hg⟩ :=
    grade_match_spec store tidRaw none none now item rest hq
  exact ⟨l1, l2, hstore, hg, rfl, rfl, rfl⟩

theorem grade_omitted_fields_witness :
    queryById [sampleSubmission] (pstrip "ab12cd34ef") = [sampleSubmission] ∧
    (∃ l1 l2, [sampleSubmission] = l1 ++ sampleSubmission :: l2 ∧
      grade [sampleSubmission] "ab12cd34ef" none none "T1" =
        (l1 ++ gradedDoc sampleSubmission none "" "T1" :: l2,
          GradeOutcome.updated) ∧
      (gradedDoc sampleSubmission none "" "T1").marks = none ∧
      (gradedDoc sampleSubmission none "" "T1").remark = some "" ∧
      (gradedDoc sampleSubmission none "" "T1").graded_at = some "T1") :=
  ⟨by decide,
    grade_omitted_fields [sampleSubmission] "ab12cd34ef" "T1" sampleSubmission
      [] (by decide)⟩

lemma track_found (store : List SubmissionDoc) (tid : String)
    (h0 : pstrip tid = tid) (hne : tid ≠ "") (item : SubmissionDoc)
    (rest : List SubmissionDoc) (hq : queryById store tid = item :: rest) :
    track store (some tid) = .found item := by
  show (if pstrip ((some tid).getD "") = "" then TrackResult.noId
    else
      match queryById store (pstrip ((some tid).getD "")) with
      | [] => TrackResult.notFound
      | d :: _ => TrackResult.found d) = TrackResult.found item
  rw [show pstrip ((some tid).getD "") = tid from h0, if_neg hne, hq]

/-- C1: a submit call whose five required text fields strip to non-empty
strings, with a file attached, and whose generated tracking id does not
collide with an existing record, returns a non-empty tracking id,
appends exactly one record holding the stripped submitted fields with
`marks` and `remark` null, issues exactly one blob upload keyed by the
tracking id, and a subsequent `track` with that id returns exactly that
record. -/
theorem submit_track_roundtrip (store : List SubmissionDoc)
    (name erp branch sec subj fname : String) (dsc : Option String)
    (entropy : Nat) (now : String)
    (hn : pstrip name ≠ "") (he : pstrip erp ≠ "") (hb : pstrip branch ≠ "")
    (hs : pstrip sec ≠ "") (hj : pstrip subj ≠ "")
    (hfresh : ∀ d ∈ store, d.id ≠ genTrackingId entropy) :
    ∃ doc : SubmissionDoc,
      submit store
          ⟨some name, some erp, some branch, some sec, some subj, dsc,
            some fname⟩ entropy now =
        { store := store ++ [doc],
          blobCalls := [(genTrackingId entropy, fname)],
          outcome := .success (genTrackingId entropy) } ∧
      genTrackingId entropy ≠ "" ∧
      doc.id = genTrackingId entropy ∧
      doc.student_name = pstrip name ∧
      doc.erp = pstrip erp ∧
      doc.branch = pstrip branch ∧
      doc.section_ = pstrip sec ∧
      doc.subject = pstrip subj ∧
      doc.description = pstrip (dsc.getD "") ∧
      doc.file_url = blobUrl (genTrackingId entropy) fname ∧
      doc.submitted_at = now ∧
      doc.marks = none ∧ doc.remark = none ∧ doc.graded_at = none ∧
      track (store ++ [doc]) (some (genTrackingId entropy)) = .found doc := by
  have hcond : ¬(pstrip name = "" ∨ pstrip erp = "" ∨ pstrip branch = "" ∨
      pstrip sec = "" ∨ pstrip subj = "") := by
    simp only [not_or]
    exact ⟨hn, he, hb, hs, hj⟩
  refine ⟨submissionRecord (pstrip name) (pstrip erp) (pstrip branch)
      (pstrip sec) (pstrip subj) (pstrip (dsc.getD ""))
      (genTrackingId entropy) fname now, ?_, genTrackingId_ne_empty entropy,
    rfl, rfl, rfl, rfl, rfl, rfl, rfl, rfl, rfl, rfl, rfl, rfl, ?_⟩
  · show (if pstrip name = "" ∨ pstrip erp = "" ∨ pstrip branch = "" ∨
        pstrip sec = "" ∨ pstrip subj = "" then
        ({ store := store, blobCalls := [],
           outcome := .validationMsg } : SubmitResult)
      else
        { store := upsertSubmission store
            (submissionRecord (pstrip name) (pstrip erp) (pstrip branch)
              (pstrip sec) (pstrip subj) (pstrip (dsc.getD ""))
              (genTrackingId entropy) fname now),
          blobCalls := [(genTrackingId entropy, fname)],
          outcome := .success (genTrackingId entropy) }) = _
    rw [if_neg hcond,
      upsertSubmission_append store _ (fun d hd hc => hfresh d hd hc.2)]
  · refine track_found _ _ (pstrip_genTrackingId entropy)
      (genTrackingId_ne_empty entropy) _ [] ?_
    unfold queryById
    rw [List.filter_append,
      List.filter_eq_nil_iff.mpr (fun d hd => by simpa using hfresh d hd)]
    simp [submissionRecord]

theorem submit_track_roundtrip_witness :
    (∀ d ∈ ([] : List SubmissionDoc), d.id ≠ genTrackingId 7) ∧
    (∃ doc : SubmissionDoc,
      submit []
          ⟨some "A", some "123", some "CS", some "A", some "Math", none,
            some "hw.pdf"⟩ 7 "T0" =
        { store := [] ++ [doc], blobCalls := [(genTrackingId 7, "hw.pdf")],
          outcome := .success (genTrackingId 7) } ∧
      genTrackingId 7 ≠ "" ∧
      doc.id = genTrackingId 7 ∧
      doc.student_name = pstrip "A" ∧
      doc.erp = pstrip "123" ∧
      doc.branch = pstrip "CS" ∧
      doc.subject = pstrip "Math" ∧
      doc.marks = none ∧ doc.remark = none ∧ doc.graded_at = none ∧
      track ([] ++ [doc]) (some (genTrackingId 7)) = .found doc) := by
  refine ⟨by simp, ?_⟩
  obtain ⟨doc, h1, h2, h3, h4, h5, h6, _, h8, _, _, _, h12, h13, h14, h15⟩ :=
    submit_track_roundtrip [] "A" "123" "CS" "A" "Math" "hw.pdf" none 7 "T0"
      (by decide) (by decide) (by decide) (by decide) (by decide) (by simp)
  exact ⟨doc, h1, h2, h3, h4, h5, h6, h8, h12, h13, h14, h15⟩

/-- C4 (amended): a submit call in which a required field is empty or
absent writes no record to the store and never calls the blob
collaborator; the user is re-prompted with the validation flash exactly
when all five text fields are present (an absent text field instead
raises a `KeyError` that the broad handler surfaces as the generic
submit-error flash). -/
theorem submit_invalid_no_write (store : List SubmissionDoc)
    (form : SubmitForm) (entropy : Nat) (now : String)
    (h : validSubmitForm form = false) :
    (submit store form entropy now).store = store ∧
    (submit store form entropy now).blobCalls = [] ∧
    (∀ t, (submit store form entropy now).outcome ≠ SubmitOutcome.success t) ∧
    ((submit store form entropy now).outcome = SubmitOutcome.validationMsg ↔
      textFieldsPresent form = true) := by
  obtain ⟨fn, fe, fb, fs2, fj, fd, ff⟩ := form
  cases fn <;> cases fe <;> cases fb <;> cases fs2 <;> cases fj <;> cases ff <;>
      simp_all [submit, validSubmitForm, truthyField, textFieldsPresent]
  all_goals try (split_ifs with hc <;> simp_all)

theorem submit_invalid_no_write_witness :
    validSubmitForm sampleInvalidForm = false ∧
    ((submit [] sampleInvalidForm 3 "T0").store = [] ∧
      (submit [] sampleInvalidForm 3 "T0").blobCalls = [] ∧
      (∀ t, (submit [] sampleInvalidForm 3 "T0").outcome ≠
        SubmitOutcome.success t) ∧
      ((submit [] sampleInvalidForm 3 "T0").outcome =
          SubmitOutcome.validationMsg ↔
        textFieldsPresent sampleInvalidForm = true)) :=
  ⟨by decide, submit_invalid_no_write [] sampleInvalidForm 3 "T0" (by decide)⟩

/-- C4 counterexample: with the `name` key absent (and every other
required input supplied), `submit` writes nothing and uploads nothing,
but the flash shown is the generic submit-error message produced by the
caught `KeyError`, not the validation message the claim states. -/
theorem submit_absent_field_counterexample :
    (submit [] sampleAbsentNameForm 0 "T0").store = [] ∧
    (submit [] sampleAbsentNameForm 0 "T0").blobCalls = [] ∧
    (submit [] sampleAbsentNameForm 0 "T0").outcome =
      SubmitOutcome.missingField ∧
    (submit [] sampleAbsentNameForm 0 "T0").outcome ≠
      SubmitOutcome.validationMsg := by decide

lemma readTeacher_eq_none_iff (store : List TeacherDoc) (tid : String) :
    readTeacher store tid = none ↔ ∀ d ∈ store, d.id ≠ tid := by
  constructor
  · intro h d hd hdt
    have hmem : d ∈ store.filter (fun x => decide (x.id = tid)) :=
      List.mem_filter.mpr ⟨hd, by simp [hdt]⟩
    unfold readTeacher at h
    cases hf : store.filter (fun x => decide (x.id = tid)) with
    | nil => rw [hf] at hmem; simp at hmem
    | cons a rest => rw [hf] at h; simp at h
  · intro h
    unfold readTeacher
    rw [List.filter_eq_nil_iff.mpr (fun d hd => by simpa using h d hd)]

lemma readTeacher_eq_some (store : List TeacherDoc) (tid : String)
    (t : TeacherDoc) (h : readTeacher store tid = some t) :
    t ∈ store ∧ t.id = tid := by
  unfold readTeacher at h
  cases hf : store.filter (fun x => decide (x.id = tid)) with
  | nil => rw [hf] at h; simp at h
  | cons a rest =>
      rw [hf] at h
      have ha : a ∈ store.filter (fun x => decide (x.id = tid)) := by
        rw [hf]; exact List.mem_cons_self a rest
      obtain ⟨hmem, hpred⟩ := List.mem_filter.mp ha
      cases h
      exact ⟨hmem, by simpa using hpred⟩

lemma eraseP_id_ne (store : List TeacherDoc) (tid : String)
    (h : (store.map TeacherDoc.id).Nodup) :
    ∀ d ∈ store.eraseP (fun x => x.id == tid), d.id ≠ tid := by
  induction store with
  | nil => simp
  | cons a rest ih =>
      rw [List.map_cons, List.nodup_cons] at h
      by_cases ha : a.id = tid
      · rw [List.eraseP_cons_of_pos (by simp [ha])]
        intro d hd hdt
        apply h.1
        have hm : d.id ∈ rest.map TeacherDoc.id := List.mem_map_of_mem _ hd
        rwa [hdt, ← ha] at hm
      · rw [List.eraseP_cons_of_neg (by simp [ha])]
        intro d hd
        rcases List.mem_cons.mp hd with rfl | hd2
        · exact ha
        · exact ih h.2 d hd2

/-- C3 counterexample: deleting the same existing teacher id twice does
surface an error on the second call — Cosmos `delete_item` raises
not-found, which the handler flashes as an error rather than a success
(the first call on a missing id behaves the same way). -/
theorem delete_teacher_twice_counterexample :
    (delete_teacher [sampleTeacher] "t1").2 = DeleteOutcome.deleted ∧
    (delete_teacher (delete_teacher [sampleTeacher] "t1").1 "t1").2 =
      DeleteOutcome.errorFlash ∧
    DeleteOutcome.errorFlash ≠ DeleteOutcome.deleted := by decide

/-- C3 (amended): under the Cosmos data model (unique ids in the
`teachers` container), deleting an id twice leaves zero records with
that id; a delete call reports success exactly when the id exists at
that moment, so the second call always surfaces an error flash (the
not-found error is surfaced, not masked). -/
theorem delete_teacher_twice (store : List TeacherDoc) (tid : String)
    (hnodup : (store.map TeacherDoc.id).Nodup) :
    (∀ d ∈ (delete_teacher (delete_teacher store tid).1 tid).1, d.id ≠ tid) ∧
    (delete_teacher (delete_teacher store tid).1 tid).2 =
      DeleteOutcome.errorFlash ∧
    ((delete_teacher store tid).2 = DeleteOutcome.deleted ↔
      ∃ d ∈ store, d.id = tid) := by
  cases hr : readTeacher store tid with
  | none =>
      have hall : ∀ d ∈ store, d.id ≠ tid :=
        (readTeacher_eq_none_iff store tid).mp hr
      have h1 : delete_teacher store tid = (store, .errorFlash) := by
        unfold delete_teacher deleteItemTeacher
        rw [hr]
      have e1 : (delete_teacher (delete_teacher store tid).1 tid).1 = store := by
        rw [h1]
        show (delete_teacher store tid).1 = store
        rw [h1]
      have e2 : (delete_teacher (delete_teacher store tid).1 tid).2 =
          DeleteOutcome.errorFlash := by
        rw [h1]
        show (delete_teacher store tid).2 = DeleteOutcome.errorFlash
        rw [h1]
      refine ⟨fun d hd => hall d (e1 ▸ hd), e2, ?_⟩
      rw [h1]
      exact iff_of_false (fun hc => by simp at hc)
        (fun hex => by obtain ⟨d, hd, hdt⟩ := hex; exact hall d hd hdt)
  | some t =>
      obtain ⟨hmem, hid⟩ := readTeacher_eq_some store tid t hr
      have h1 : delete_teacher store tid =
          (store.eraseP (fun d => d.id == tid), .deleted) := by
        unfold delete_teacher deleteItemTeacher
        rw [hr]
      have herase := eraseP_id_ne store tid hnodup
      have hr2 : readTeacher (store.eraseP (fun d => d.id == tid)) tid = none :=
        (readTeacher_eq_none_iff _ _).mpr herase
      have h2 : delete_teacher (store.eraseP (fun d => d.id == tid)) tid =
          (store.eraseP (fun d => d.id == tid), .errorFlash) := by
        unfold delete_teacher deleteItemTeacher
        rw [hr2]
      have e1 : (delete_teacher (delete_teacher store tid).1 tid).1 =
          store.eraseP (fun d => d.id == tid) := by
        rw [h1]
        show (delete_teacher (store.eraseP (fun d => d.id == tid)) tid).1 =
          store.eraseP (fun d => d.id == tid)
        rw [h2]
      have e2 : (delete_teacher (delete_teacher store tid).1 tid).2 =
          DeleteOutcome.errorFlash := by
        rw [h1]
        show (delete_teacher (store.eraseP (fun d => d.id == tid)) tid).2 =
          DeleteOutcome.errorFlash
        rw [h2]
      refine ⟨fun d hd => herase d (e1 ▸ hd), e2, ?_⟩
      rw [h1]
      exact iff_of_true rfl ⟨t, hmem, hid⟩

theorem delete_teacher_twice_witness :
    (([sampleTeacher].map TeacherDoc.id).Nodup) ∧
    ((∀ d ∈ (delete_teacher (delete_teacher [sampleTeacher] "t1").1 "t1").1,
        d.id ≠ "t1") ∧
      (delete_teacher (delete_teacher [sampleTeacher] "t1").1 "t1").2 =
        DeleteOutcome.errorFlash ∧
      ((delete_teacher [sampleTeacher] "t1").2 = DeleteOutcome.deleted ↔
        ∃ d ∈ [sampleTeacher], d.id = "t1")) :=
  ⟨by decide, delete_teacher_twice [sampleTeacher] "t1" (by decide)⟩

/-- C6: a create-teacher request with mismatched password and
confirmation, or a password shorter than six characters, or an empty
teacher id, teacher name, or password, is rejected with one of the three
validation flashes, and the teachers store receives no write of any
kind. -/
theorem create_teacher_validation_no_write (store : List TeacherDoc)
    (tid tname pw cpw : String) (genHash : String → String)
    (admin now : String)
    (h : pw ≠ cpw ∨ pw.length < 6 ∨ pstrip tid = "" ∨ pstrip tname = "" ∨
      pw = "") :
    (create_teacher store tid tname pw cpw genHash admin now).1 = store ∧
    ((create_teacher store tid tname pw cpw genHash admin now).2 =
        CreateOutcome.missingFields ∨
      (create_teacher store tid tname pw cpw genHash admin now).2 =
        CreateOutcome.passwordMismatch ∨
      (create_teacher store tid tname pw cpw genHash admin now).2 =
        CreateOutcome.passwordTooShort) := by
  unfold create_teacher
  dsimp only
  split_ifs with h1 h2 h3
  · exact ⟨rfl, Or.inl rfl⟩
  · exact ⟨rfl, Or.inr (Or.inl rfl)⟩
  · exact ⟨rfl, Or.inr (Or.inr rfl)⟩
  · exact absurd h (by tauto)

theorem create_teacher_validation_no_write_witness :
    ("abc" ≠ "abc" ∨ "abc".length < 6 ∨ pstrip "t2" = "" ∨
      pstrip "Bob" = "" ∨ "abc" = "") ∧
    ((create_teacher [] "t2" "Bob" "abc" "abc" (fun s => s) "admin" "T1").1 =
        [] ∧
      ((create_teacher [] "t2" "Bob" "abc" "abc" (fun s => s) "admin" "T1").2 =
          CreateOutcome.missingFields ∨
        (create_teacher [] "t2" "Bob" "abc" "abc" (fun s => s) "admin"
            "T1").2 = CreateOutcome.passwordMismatch ∨
        (create_teacher [] "t2" "Bob" "abc" "abc" (fun s => s) "admin"
            "T1").2 = CreateOutcome.passwordTooShort)) :=
  ⟨by decide,
    create_teacher_validation_no_write [] "t2" "Bob" "abc" "abc" (fun s => s)
      "admin" "T1" (by decide)⟩

/-- C7 counterexample: a create-teacher request whose id already exists
but whose password is shorter than six characters is rejected by the
earlier length validation, not with the duplicate-id error the claim
states (the store is still unmodified). -/
theorem create_teacher_duplicate_counterexample :
    readTeacher [sampleTeacher] (pstrip "t1") = some sampleTeacher ∧
    (create_teacher [sampleTeacher] "t1" "Bob" "abc" "abc" (fun s => s)
        "admin" "T1").2 = CreateOutcome.passwordTooShort ∧
    (create_teacher [sampleTeacher] "t1" "Bob" "abc" "abc" (fun s => s)
        "admin" "T1").2 ≠ CreateOutcome.duplicateId := by decide

/-- C7 (amended): a create-teacher request that passes the field
validations (non-empty id, name and password; matching confirmation;
length at least six) and whose teacher id already exists in the store is
rejected with the duplicate-id flash, and the store — in particular the
existing record with that id — is returned unmodified. -/
theorem create_teacher_duplicate_rejected (store : List TeacherDoc)
    (tid tname pw cpw : String) (genHash : String → String)
    (admin now : String) (t : TeacherDoc)
    (h1 : pstrip tid ≠ "") (h2 : pstrip tname ≠ "") (h3 : pw ≠ "")
    (h4 : pw = cpw) (h5 : ¬pw.length < 6)
    (hdup : readTeacher store (pstrip tid) = some t) :
    create_teacher store tid tname pw cpw genHash admin now =
      (store, CreateOutcome.duplicateId) := by
  unfold create_teacher
  dsimp only
  rw [if_neg (by simp only [not_or]; exact ⟨h1, h2, h3⟩),
    if_neg (by simp [h4]), if_neg h5, hdup]

theorem create_teacher_duplicate_rejected_witness :
    (pstrip "t1" ≠ "" ∧ pstrip "Bob" ≠ "" ∧ "abcdef" ≠ "" ∧
      "abcdef" = "abcdef" ∧ ¬"abcdef".length < 6 ∧
      readTeacher [sampleTeacher] (pstrip "t1") = some sampleTeacher) ∧
    create_teacher [sampleTeacher] "t1" "Bob" "abcdef" "abcdef" (fun s => s)
        "admin" "T1" = ([sampleTeacher], CreateOutcome.duplicateId) :=
  ⟨by decide,
    create_teacher_duplicate_rejected [sampleTeacher] "t1" "Bob" "abcdef"
      "abcdef" (fun s => s) "admin" "T1" sampleTeacher (by decide) (by decide)
      (by decide) (by decide) (by decide) (by decide)⟩

/-- C9: the database credential source is consulted before the legacy
flat file — a database match that passes the hash check wins regardless
of the legacy file contents; the legacy file authenticates only when
the database path fails its hash check or finds no teacher; and every
failure combination (not found or hash mismatch, in either source)
produces the one generic invalid-credentials flash, which therefore
cannot reveal which source was tried. -/
theorem login_credential_order (teachers : List TeacherDoc)
    (legacy : List (String × String)) (checkHash : String → String → Bool)
    (tidRaw pw : String) :
    (∀ t, load_teacher_from_db teachers (pstrip tidRaw) = some t →
      checkHash t.password pw = true →
      login teachers legacy checkHash tidRaw pw =
        LoginResult.dbSuccess (pstrip tidRaw) t.name) ∧
    ((∀ t, load_teacher_from_db teachers (pstrip tidRaw) = some t →
        checkHash t.password pw = false) →
      ∀ hsh, legacyLookup legacy (pstrip tidRaw) = some hsh → hsh ≠ "" →
        checkHash hsh pw = true →
        login teachers legacy checkHash tidRaw pw =
          LoginResult.legacySuccess (pstrip tidRaw) (pstrip tidRaw)) ∧
    ((∀ t, load_teacher_from_db teachers (pstrip tidRaw) = some t →
        checkHash t.password pw = false) →
      (∀ hsh, legacyLookup legacy (pstrip tidRaw) = some hsh →
        hsh = "" ∨ checkHash hsh pw = false) →
      login teachers legacy checkHash tidRaw pw = LoginResult.invalid) := by
  refine ⟨?_, ?_, ?_⟩
  · intro t hdb hch
    simp [login, hdb, hch]
  · intro hdbf hsh hleg hne hch
    cases hdb : load_teacher_from_db teachers (pstrip tidRaw) with
    | none => simp [login, hdb, hleg, hne, hch]
    | some t => simp [login, hdb, hdbf t hdb, hleg, hne, hch]
  · intro hdbf hlegf
    cases hdb : load_teacher_from_db teachers (pstrip tidRaw) with
    | none =>
        cases hleg : legacyLookup legacy (pstrip tidRaw) with
        | none => simp [login, hdb, hleg]
        | some hsh =>
            rcases hlegf hsh hleg with h | h
            · simp [login, hdb, hleg, h]
            · simp [login, hdb, hleg, h]
    | some t =>
        cases hleg : legacyLookup legacy (pstrip tidRaw) with
        | none => simp [login, hdb, hdbf t hdb, hleg]
        | some hsh =>
            rcases hlegf hsh hleg with h | h
            · simp [login, hdb, hdbf t hdb, hleg, h]
            · simp [login, hdb, hdbf t hdb, hleg, h]

theorem login_credential_order_witness :
    login [sampleTeacher] [("t1", "legacyhash")] sampleCheckHash "t1" "pw1" =
      LoginResult.dbSuccess (pstrip "t1") sampleTeacher.name :=
  (login_credential_order [sampleTeacher] [("t1", "legacyhash")]
      sampleCheckHash "t1" "pw1").1 sampleTeacher (by decide) (by decide)

end AsProject
